import Mathlib

/-!
Shallow embedding of the AI document summarization / metadata extraction
service (NestJS + TypeScript).  The repository contains two revisions of the
document service:

* a synchronous workflow (`summarizeAndExtract`, OpenAI backend): extract
  text, build a prompt, one model call, `JSON.parse` the raw reply, check six
  required fields;
* an asynchronous persisted workflow (`uploadDocument` / `analyzeDocument` /
  `getDocument`, Gemini backend): persist a record with a status lifecycle
  `uploaded → processing → analyzed/failed`, retry the model call with a
  timeout, extract a JSON candidate from the raw reply, and validate
  `summary` / `docType` by truthiness.

Strings are modelled as `List Char` where index arithmetic matters and as
Lean `String` elsewhere; JavaScript buffers are modelled by their decoded
UTF-8 content.  External collaborators (the generative model, `JSON.parse`,
`JSON.stringify`, the file system, `pdf-parse`, `mammoth`) are parameters of
the embedded functions; everything written in the repository itself is
translated directly from the source.
-/

namespace DocWorkflow

/-- Whitespace test used by the embedded `trim` (space, tab, CR, LF; the
JavaScript `trim` additionally strips rarer Unicode spaces, which no claim
exercises). -/
def isWS (c : Char) : Bool := c = ' ' ∨ c = '\t' ∨ c = '\n' ∨ c = '\r'

/-- Embedded `String.prototype.trim` on character lists: drop whitespace from
both ends. -/
def trimChars (s : List Char) : List Char :=
  ((s.dropWhile isWS).reverse.dropWhile isWS).reverse

/-- Embedded `String.prototype.trim` on strings. -/
def jsTrim (s : String) : String :=
  String.mk (trimChars s.data)

/-- Embedded `String.prototype.toLowerCase`, character-wise. -/
def toLowerStr (s : String) : String :=
  String.mk (s.data.map Char.toLower)

/-- Embedded `String.prototype.split` for a one-character separator. -/
def splitChars (sep : Char) : List Char → List (List Char)
  | [] => [[]]
  | c :: rest =>
    match splitChars sep rest with
    | [] => [[]]
    | cur :: others =>
      if c = sep then [] :: cur :: others else (c :: cur) :: others

/-- JSON values as produced by `JSON.parse`. -/
inductive Json where
  | null : Json
  | bool (b : Bool) : Json
  | num (n : Int) : Json
  | str (s : String) : Json
  | arr (elems : List Json) : Json
  | obj (fields : List (String × Json)) : Json

/-- JavaScript truthiness of a JSON value (`null`, `false`, `0` and `""` are
falsy; arrays and objects are always truthy). -/
def truthy : Json → Bool
  | .null => false
  | .bool b => b
  | .num n => n ≠ 0
  | .str s => s ≠ ""
  | .arr _ => true
  | .obj _ => true

/-- Property access `j[k]` on a parsed JSON value: a key lookup on objects,
`undefined` (here `none`) on every other shape. -/
def getField (j : Json) (k : String) : Option Json :=
  match j with
  | .obj fields => fields.lookup k
  | _ => none

/-- Truthiness of a possibly-`undefined` property (`undefined` is falsy). -/
def truthyOpt : Option Json → Bool
  | none => false
  | some v => truthy v

/-- Embedded `k in j`: whether `k` is a key of the parsed object. -/
def hasKey (j : Json) (k : String) : Bool :=
  (getField j k).isSome

/-- Lifecycle states of a persisted document record. -/
inductive DocStatus where
  | uploaded | processing | analyzed | failed
deriving DecidableEq, Repr

/-- Persisted document record (Prisma model `Document`; timestamps omitted,
`summary` / `docType` / `metadata` are nullable columns). -/
structure Document where
  id : String
  originalName : String
  mimeType : String
  size : Nat
  storagePath : String
  extractedText : String
  status : DocStatus
  summary : Option Json
  docType : Option Json
  metadata : Option Json

/-- Shape returned by `analyzeDocument` on success. -/
structure AnalyzeResponse where
  id : String
  status : DocStatus
  summary : Option Json
  docType : Option Json
  metadata : Option Json

/-- Externally observable failures of `analyzeDocument`.  Every error thrown
inside the big `try` block (retry exhaustion, empty response, JSON parse
failure, incomplete response) is caught by the outer `catch`, which marks the
record `failed` and rethrows one generic `InternalServerErrorException`, so
those inner causes collapse into the single `aiFailed` outcome. -/
inductive AnalyzeError where
  | notFound | noExtractedText | conflict | aiFailed
deriving DecidableEq, Repr

/-! ## JS-style index primitives -/

/-- Embedded `String.prototype.indexOf` for a single character: the index of
the first occurrence, `-1` when absent. -/
def jsIndexOf (s : List Char) (c : Char) : Int :=
  match s.findIdx? (· = c) with
  | some i => (i : Int)
  | none => -1

/-- Last index of a character as an `Option` (spec-side formulation). -/
def lastIdxOf (s : List Char) (c : Char) : Option Nat :=
  match s.reverse.findIdx? (· = c) with
  | some i => some (s.length - 1 - i)
  | none => none

/-- Embedded `String.prototype.lastIndexOf` for a single character: the index
of the last occurrence, `-1` when absent. -/
def jsLastIndexOf (s : List Char) (c : Char) : Int :=
  match lastIdxOf s c with
  | some i => (i : Int)
  | none => -1

/-! ## Fenced JSON block recognition

The source uses the regular expression `/(three backticks)json([\s\S]*?)(three
backticks)/i`: the match starts at the first case-insensitive occurrence of
the 7-character opener and its lazily-matched interior ends at the next
occurrence of the 3-backtick closer.  (If no closer follows the first opener
then no later opener can match either, since any later opener would itself
contain a closer, so the whole expression fails and the code falls back.) -/

/-- Character list of the fence opener. -/
def fenceOpen : List Char := '`' :: '`' :: '`' :: 'j' :: 's' :: 'o' :: 'n' :: []

/-- Character list of the fence closer. -/
def fenceClose : List Char := '`' :: '`' :: '`' :: []

/-- Index of the first case-insensitive occurrence of the fence opener. -/
def fencedOpenIdx (text : List Char) : Option Nat :=
  (List.range text.length).find?
    (fun i => fenceOpen.isPrefixOf ((text.map Char.toLower).drop i))

/-- Index of the first fence closer at or after `start`. -/
def closeIdxFrom (text : List Char) (start : Nat) : Option Nat :=
  (List.range text.length).find?
    (fun j => decide (start ≤ j) && fenceClose.isPrefixOf (text.drop j))

/-- Interior of the first fenced JSON block (between opener and the next
closer), or `none` when the regular expression fails to match. -/
def fencedInterior (text : List Char) : Option (List Char) :=
  match fencedOpenIdx text with
  | none => none
  | some i =>
    match closeIdxFrom text (i + 7) with
    | none => none
    | some j => some ((text.drop (i + 7)).take (j - (i + 7)))

/-- Embedded `DocumentService.extractFirstJsonBlock` (asynchronous revision):
trimmed interior of a fenced JSON block if the regular expression matches;
otherwise the inclusive slice from the first `\x7b` to the last `\x7d` when
both exist with the latter strictly after the former; otherwise the trimmed
text. -/
def extractFirstJsonBlock (text : List Char) : List Char :=
  match fencedInterior text with
  | some interior => trimChars interior
  | none =>
    let firstBrace : Int := jsIndexOf text '{'
    let lastBrace : Int := jsLastIndexOf text '}'
    if firstBrace ≠ -1 ∧ lastBrace ≠ -1 ∧ firstBrace < lastBrace then
      (text.drop firstBrace.toNat).take (lastBrace.toNat + 1 - firstBrace.toNat)
    else
      trimChars text

/-- JSON-candidate selection of the synchronous workflow: `summarizeAndExtract`
hands the raw model text to `JSON.parse` unchanged (no extraction step). -/
def syncJsonCandidate (raw : List Char) : List Char := raw

/-! ## Prompt truncation -/

/-- Prompt input of the synchronous workflow (line
`const trimmed = text.length > 8000 ? text.slice(0, 8000) : text`). -/
def promptInputSync (text : List Char) : List Char :=
  if 8000 < text.length then text.take 8000 else text

/-- Prompt input of the asynchronous workflow (line
`const text = doc.extractedText.slice(0, 8000)`). -/
def promptInputAsync (text : List Char) : List Char :=
  text.take 8000

/-! ## Required-field validation -/

/-- Required fields of the synchronous workflow, in source order. -/
def requiredFields : List String :=
  ["summary", "title", "keywords", "language", "domain", "sentiment"]

/-- Embedded `for (const field of requiredFields) if (!(field in parsed))
throw ...`: succeeds when every listed field is a key of `parsed`, otherwise
reports the first field (in list order) that is not a key. -/
def validateRequired : List String → Json → Except String Unit
  | [], _ => .ok ()
  | f :: rest, parsed =>
    if hasKey parsed f then validateRequired rest parsed else .error f

/-- Field validation of the synchronous workflow. -/
def validateSync (parsed : Json) : Except String Unit :=
  validateRequired requiredFields parsed

/-- Field validation of the asynchronous workflow: the source tests
`if (!parsed.summary || !parsed.docType)`, i.e. it succeeds exactly when both
property values are truthy (a present-but-empty `summary` fails). -/
def validateAsync (parsed : Json) : Bool :=
  truthyOpt (getField parsed "summary") && truthyOpt (getField parsed "docType")

/-! ## Model-invoker retry loop

The `for (let attempt = 1; attempt <= this.aiMaxRetries; attempt++)` loop of
`analyzeDocument`.  `oracle attempt` models the outcome that
`withTimeout(runGeminiOnce(), aiTimeoutMs)` settles to on that attempt
(`.error` covers both a provider rejection and the timeout firing first).
The result pairs the loop outcome with the number of attempts performed;
`.ok none` is the loop falling through with `responseText` still `null`,
which can only happen when the bound is below the first attempt index. -/

def geminiAttempts (oracle : Nat → Except String String) (maxRetries : Nat)
    (attempt : Nat) : Except String (Option String) × Nat :=
  if maxRetries < attempt then (.ok none, 0)
  else
    match oracle attempt with
    | .ok s => (.ok (some s), 1)
    | .error e =>
      if attempt = maxRetries then (.error e, 1)
      else
        let r := geminiAttempts oracle maxRetries (attempt + 1)
        (r.1, r.2 + 1)
termination_by maxRetries + 1 - attempt
decreasing_by
  simp_wf
  omega

/-! ## analyzeDocument -/

/-- Notice object substituted for an oversized metadata payload. -/
def metadataNotice : Json :=
  .obj [("notice", .str "Metadata truncated due to size.")]

/-- Metadata value written by `analyzeDocument`: the size guard
`if (parsed.metadata && JSON.stringify(parsed.metadata).length > 10_000)`
replaces an oversized truthy payload with the notice object, and the nullish
coalescing `parsed.metadata ?? \x7b\x7d` stores an empty object for a missing
or `null` payload.  `stringifyLen` abstracts `JSON.stringify(·).length`. -/
def storedMetadata (stringifyLen : Json → Nat) (parsed : Json) : Json :=
  let md0 := getField parsed "metadata"
  let md1 := md0.map (fun m =>
    if truthy m && decide (10000 < stringifyLen m) then metadataNotice else m)
  match md1 with
  | none => .obj []
  | some .null => .obj []
  | some m => m

/-- Embedded `DocumentService.analyzeDocument` (asynchronous revision).

Parameters abstract the external collaborators: `parse` is `JSON.parse`
(returning `none` on a syntax error), `stringifyLen` is
`JSON.stringify(·).length`, `oracle` the per-attempt model outcome, and
`maxRetries` the configured attempt bound.  `found` is the record returned by
`prisma.document.findUnique`.

The result is the thrown-or-returned outcome, the final persisted state of
the record, and the number of model invocations performed. -/
def analyzeDocument (parse : List Char → Option Json) (stringifyLen : Json → Nat)
    (oracle : Nat → Except String String) (maxRetries : Nat)
    (found : Option Document) :
    Except AnalyzeError AnalyzeResponse × Option Document × Nat :=
  match found with
  | none => (.error .notFound, none, 0)
  | some doc =>
    if (jsTrim doc.extractedText).length < 5 then
      (.error .noExtractedText, some doc, 0)
    else if doc.status = .analyzed then
      (.ok ⟨doc.id, doc.status, doc.summary, doc.docType, doc.metadata⟩,
        some doc, 0)
    else if doc.status = .processing then
      (.error .conflict, some doc, 0)
    else
      -- mark as processing, then run the guarded model call
      let failedDoc : Document := { doc with status := .failed }
      match geminiAttempts oracle maxRetries 1 with
      | (.error _, n) => (.error .aiFailed, some failedDoc, n)
      | (.ok none, n) => (.error .aiFailed, some failedDoc, n)
      | (.ok (some s), n) =>
        if (trimChars s.data).length = 0 then
          (.error .aiFailed, some failedDoc, n)
        else
          let candidate := extractFirstJsonBlock s.data
          match parse candidate with
          | none => (.error .aiFailed, some failedDoc, n)
          | some parsed =>
            if validateAsync parsed = false then
              (.error .aiFailed, some failedDoc, n)
            else
              let docA : Document :=
                { doc with
                  status := .analyzed
                  summary := getField parsed "summary"
                  docType := getField parsed "docType"
                  metadata := some (storedMetadata stringifyLen parsed) }
              (.ok ⟨docA.id, docA.status, docA.summary, docA.docType,
                docA.metadata⟩, some docA, n)

/-! ## Path helpers (`node:path`, POSIX behaviour) -/

/-- Embedded `path.basename`: drop trailing separators, then keep the part
after the last separator. -/
def basenamePosix (s : List Char) : List Char :=
  let s' := (s.reverse.dropWhile (· = '/'))
  (s'.takeWhile (· ≠ '/')).reverse

/-- Embedded `path.extname`: from the last dot of the basename to the end,
empty when the basename has no dot or only a leading dot. -/
def extnameOf (name : String) : String :=
  let b := basenamePosix name.data
  match lastIdxOf b '.' with
  | none => ""
  | some 0 => ""
  | some i => String.mk (b.drop i)

/-- Characters kept by the sanitizer's character class
`[a-zA-Z0-9.\-_]` (everything else is replaced by an underscore). -/
def isSafeChar (c : Char) : Bool :=
  ('a' ≤ c ∧ c ≤ 'z') ∨ ('A' ≤ c ∧ c ≤ 'Z') ∨ ('0' ≤ c ∧ c ≤ '9') ∨
    c = '.' ∨ c = '-' ∨ c = '_'

/-- Embedded `String.prototype.slice(-80)`: the last `min 80 length`
characters. -/
def jsSliceLast80 (s : List Char) : List Char :=
  s.drop (s.length - 80)

/-- Embedded `DocumentService.sanitizeFileName`.  `nowStr` is the decimal
rendering of `Date.now()` used by the empty-name fallback. -/
def sanitizeFileName (nowStr : String) (originalName : String) : String :=
  let base := basenamePosix originalName.data
  let safe := base.map (fun c => if isSafeChar c then c else '_')
  let truncated := jsSliceLast80 safe
  if truncated.isEmpty then "file_" ++ nowStr else String.mk truncated

/-- Whether a file-name component is the parent-directory traversal
component. -/
def isTraversalComponent (s : String) : Bool := s = ".."

/-! ## Text extractors

The repository carries two revisions of `extractTextFromBuffer`.  Buffers are
modelled by their decoded UTF-8 content; the external libraries are
parameters: `pdfOutcome = none` models `pdf-parse` throwing, and
`pdfOutcome = some t` models a parse result whose `.text` field is `t`
(itself optional).  Likewise `docxOutcome` for `mammoth.extractRawText`. -/

/-- Extraction failure kinds (messages abbreviated to tags). -/
inductive ExtractError where
  | corruptPdf | corruptDocx | unsupportedType
deriving DecidableEq, Repr

/-- Embedded `extractTextFromBuffer`, first revision
(`src/utils/text-extractor.ts`): PDF text passed through `|| ''` untrimmed,
DOCX replaced by a placeholder string, TXT decoded directly. -/
def extractTextV1 (pdfOutcome : Option (Option String)) (buffer : String)
    (originalName : String) : Except ExtractError String :=
  let ext := toLowerStr (extnameOf originalName)
  if ext = ".pdf" then
    match pdfOutcome with
    | none => .error .corruptPdf
    | some t => .ok (t.getD "")
  else if ext = ".docx" then
    .ok "DOCX extraction placeholder — implement with a proper library for full support."
  else if ext = ".txt" then
    .ok buffer
  else
    .error .unsupportedType

/-- Embedded `extractTextFromBuffer`, second revision (with `mammoth`): PDF
and DOCX results go through `?.trim() || ''`, TXT is decoded directly with no
trim. -/
def extractTextV2 (pdfOutcome : Option (Option String))
    (docxOutcome : Option (Option String)) (buffer : String)
    (originalName : String) : Except ExtractError String :=
  let ext := toLowerStr (extnameOf originalName)
  if ext = ".pdf" then
    match pdfOutcome with
    | none => .error .corruptPdf
    | some t => .ok ((t.map jsTrim).getD "")
  else if ext = ".docx" then
    match docxOutcome with
    | none => .error .corruptDocx
    | some t => .ok ((t.map jsTrim).getD "")
  else if ext = ".txt" then
    .ok buffer
  else
    .error .unsupportedType

/-! ## uploadDocument -/

/-- Multipart file as received by `uploadDocument`. -/
structure UploadFile where
  originalname : String
  mimetype : String
  buffer : String
  size : Option Nat

/-- Externally observable failures of `uploadDocument`. -/
inductive UploadError where
  | fileRequired | emptyFile | tooLarge | unsupportedType | storeFailed
  | extractFailed | noReadableText
deriving DecidableEq, Repr

/-- Embedded constructor line
`Number(this.config.get('MAX_FILE_SIZE')) || 5 * 1024 * 1024` (an absent or
zero configuration value falls back to 5 MB). -/
def maxFileSizeBytes (cfg : Option Nat) : Nat :=
  match cfg with
  | some n => if n = 0 then 5 * 1024 * 1024 else n
  | none => 5 * 1024 * 1024

/-- Embedded constructor lines for the allowed-extension list: the configured
`ALLOWED_FILE_TYPES` (an empty string is falsy and falls back like an absent
one) split on commas, each entry trimmed and lower-cased.  The default is
`".pdf,.docx"`. -/
def parseAllowedExtensions (cfg : Option String) : List String :=
  let raw := match cfg with
    | some s => if s = "" then ".pdf,.docx" else s
    | none => ".pdf,.docx"
  (splitChars ',' raw.data).map (fun e => toLowerStr (jsTrim (String.mk e)))

/-- Embedded `DocumentService.uploadDocument` (asynchronous revision).
`storeOk` abstracts the `fs.promises.writeFile` outcome, `pdfOutcome` and
`docxOutcome` the extraction libraries (second-revision extractor), and
`newId` the id generated by the persistence layer.  On success the created
record is returned (the HTTP layer then projects out
id/originalName/mimeType/size/status/createdAt). -/
def uploadDocument (allowedCfg : Option String) (maxSizeCfg : Option Nat)
    (storeOk : Bool) (pdfOutcome docxOutcome : Option (Option String))
    (newId : String) (file : Option UploadFile) :
    Except UploadError Document :=
  match file with
  | none => .error .fileRequired
  | some f =>
    if f.buffer.length = 0 then .error .emptyFile
    else
      let size := f.size.getD f.buffer.length
      if maxFileSizeBytes maxSizeCfg < size then .error .tooLarge
      else
        let ext := toLowerStr (extnameOf f.originalname)
        if ext ∉ parseAllowedExtensions allowedCfg then .error .unsupportedType
        else if storeOk = false then .error .storeFailed
        else
          match extractTextV2 pdfOutcome docxOutcome f.buffer f.originalname with
          | .error _ => .error .extractFailed
          | .ok text =>
            if (jsTrim text).length < 5 then .error .noReadableText
            else
              .ok { id := newId
                    originalName := f.originalname
                    mimeType := f.mimetype
                    size := size
                    storagePath := "uploads"
                    extractedText := text
                    status := .uploaded
                    summary := none
                    docType := none
                    metadata := none }

/-! ## Synchronous workflow `summarizeAndExtract`

Errors are distinguished here because the synchronous revision has no
outer catch-all: each stage throws its own typed
`InternalServerErrorException`. -/

/-- Failure kinds of the synchronous workflow, one per `throw` site. -/
inductive SyncError where
  | extractFailed | noReadableText | apiFailed | emptyResponse
  | malformedJson | missingField (f : String)
deriving DecidableEq, Repr

/-- Embedded `DocumentService.summarizeAndExtract` (synchronous revision).
`extractOutcome` abstracts `extractTextFromBuffer` on the uploaded buffer
(`.error` models the helper throwing), `modelOutcome` the OpenAI completion
call (`none` models the request rejecting, `some raw` the content of the
first choice after `?? ""`), and `parse` is `JSON.parse`.  The prompt content
does not influence control flow, so the model call is modelled by its
outcome alone; `promptInputSync` (proved below) captures the text actually
embedded. -/
def summarizeAndExtract (parse : List Char → Option Json)
    (extractOutcome : Except String String) (modelOutcome : Option String) :
    Except SyncError Json :=
  match extractOutcome with
  | .error _ => .error .extractFailed
  | .ok text =>
    if (jsTrim text).length < 5 then .error .noReadableText
    else
      match modelOutcome with
      | none => .error .apiFailed
      | some raw =>
        if (jsTrim raw).length = 0 then .error .emptyResponse
        else
          match parse (syncJsonCandidate raw.data) with
          | none => .error .malformedJson
          | some parsed =>
            match validateSync parsed with
            | .error f => .error (.missingField f)
            | .ok _ => .ok parsed

/-! ## Two concurrent analyze calls on one record

`analyzeDocument` performs `findUnique` (a read) and then, after in-memory
checks on the snapshot, an unconditional `update` setting the status to
`processing` — two separate storage operations.  The model below runs two
such calls against one shared record status under an explicit interleaving.
Both calls are assumed to address an existing record with valid extracted
text, so only the status is relevant shared state. -/

/-- Phase of one analyze call: before its read, after its read (holding the
status snapshot), finished with a conflict error, finished the idempotent
read of an analyzed record, or past the update that set `processing`. -/
inductive ThreadPhase where
  | start
  | observed (snapshot : DocStatus)
  | gotConflict
  | returnedStored
  | proceeding
deriving DecidableEq, Repr

/-- One scheduler step of one analyze call against the shared status. -/
def threadStep : DocStatus → ThreadPhase → DocStatus × ThreadPhase
  | db, .start => (db, .observed db)
  | db, .observed snap =>
    if snap = .analyzed then (db, .returnedStored)
    else if snap = .processing then (db, .gotConflict)
    else (.processing, .proceeding)
  | db, ph => (db, ph)

/-- Run a schedule over two analyze calls; `true` steps the first call,
`false` the second. -/
def runSchedule : List Bool → DocStatus × ThreadPhase × ThreadPhase →
    DocStatus × ThreadPhase × ThreadPhase
  | [], st => st
  | b :: rest, (db, t1, t2) =>
    if b then
      let s := threadStep db t1
      runSchedule rest (s.1, s.2, t2)
    else
      let s := threadStep db t2
      runSchedule rest (s.1, t1, s.2)

/-! ## Spec-side JSON-candidate selection

Two restatements of the candidate-selection algorithm written from the
specification's wording, to be compared with the source translation
`extractFirstJsonBlock` above.  `claimJsonCandidate` follows the claim
verbatim: an untrimmed fenced interior, and the brace fallback guarded only
by the presence of both braces.  `amendedJsonCandidate` is the corrected
wording: the fenced interior is trimmed, and the brace fallback additionally
requires the last closing brace to lie strictly after the first opening
one. -/

/-- Candidate selection as the claim words it. -/
def claimJsonCandidate (text : List Char) : List Char :=
  match fencedInterior text with
  | some interior => interior
  | none =>
    match text.findIdx? (· = '{'), lastIdxOf text '}' with
    | some f, some l => (text.drop f).take (l + 1 - f)
    | _, _ => trimChars text

/-- Candidate selection as the amended claim words it. -/
def amendedJsonCandidate (text : List Char) : List Char :=
  match fencedInterior text with
  | some interior => trimChars interior
  | none =>
    match text.findIdx? (· = '{'), lastIdxOf text '}' with
    | some f, some l =>
      if f < l then (text.drop f).take (l + 1 - f) else trimChars text
    | _, _ => trimChars text

/-! ## Helper lemmas about trimming -/

theorem dropWhile_idem {α : Type} (p : α → Bool) (l : List α) :
    (l.dropWhile p).dropWhile p = l.dropWhile p := by
  cases h : l.dropWhile p with
  | nil => simp
  | cons c t =>
    have hc := List.head?_dropWhile_not p l
    rw [h] at hc
    simp only [List.head?_cons] at hc
    simp [List.dropWhile_cons, hc]

theorem getLast?_dropWhile {α : Type} (p : α → Bool) (l : List α)
    (hne : l.dropWhile p ≠ []) : (l.dropWhile p).getLast? = l.getLast? := by
  obtain ⟨t, ht⟩ := List.dropWhile_suffix (l := l) p
  conv_rhs => rw [← ht]
  exact (List.getLast?_append_of_ne_nil t hne).symm

theorem trimChars_idem (s : List Char) :
    trimChars (trimChars s) = trimChars s := by
  unfold trimChars
  have h1 : ((((s.dropWhile isWS).reverse.dropWhile isWS).reverse).dropWhile isWS)
      = ((s.dropWhile isWS).reverse.dropWhile isWS).reverse := by
    cases hbr : ((s.dropWhile isWS).reverse.dropWhile isWS).reverse with
    | nil => simp [hbr]
    | cons c t =>
      have hc : isWS c = false := by
        have hbne : (s.dropWhile isWS).reverse.dropWhile isWS ≠ [] := by
          intro h
          rw [h] at hbr
          simp at hbr
        have h2 : ((s.dropWhile isWS).reverse.dropWhile isWS).getLast?
            = (s.dropWhile isWS).reverse.getLast? :=
          getLast?_dropWhile isWS (s.dropWhile isWS).reverse hbne
        have h3 : (s.dropWhile isWS).reverse.getLast? = (s.dropWhile isWS).head? :=
          List.getLast?_reverse _
        have hhead : ((s.dropWhile isWS).reverse.dropWhile isWS).getLast? = some c := by
          rw [← List.head?_reverse, hbr, List.head?_cons]
        have h4 := List.head?_dropWhile_not isWS s
        have h5 : (s.dropWhile isWS).head? = some c := by
          rw [← h3, ← h2, hhead]
        rw [h5] at h4
        exact h4
      simp [List.dropWhile_cons, hc]
  rw [h1, List.reverse_reverse, dropWhile_idem]

theorem jsTrim_idem (s : String) : jsTrim (jsTrim s) = jsTrim s := by
  unfold jsTrim
  rw [show (String.mk (trimChars s.data)).data = trimChars s.data from rfl,
    trimChars_idem]

/-! # Claim theorems -/

/-- C1: for a persisted record in status `analyzed` (with the extracted text
every persisted record carries, at least 5 characters after trimming),
`analyzeDocument` returns the stored summary, docType and metadata unchanged,
leaves the record untouched, and performs zero model invocations. -/
theorem analyze_idempotent_on_analyzed (parse : List Char → Option Json)
    (stringifyLen : Json → Nat) (oracle : Nat → Except String String)
    (maxRetries : Nat) (doc : Document)
    (hstatus : doc.status = .analyzed)
    (htext : 5 ≤ (jsTrim doc.extractedText).length) :
    analyzeDocument parse stringifyLen oracle maxRetries (some doc) =
      (.ok ⟨doc.id, .analyzed, doc.summary, doc.docType, doc.metadata⟩,
        some doc, 0) := by
  simp only [analyzeDocument]
  rw [if_neg (by omega), hstatus, if_pos rfl]

/-- Witness for C1 at a concrete analyzed record. -/
theorem analyze_idempotent_on_analyzed_witness :
    analyzeDocument (fun _ => none) (fun _ => 0) (fun _ => .error "timeout") 2
      (some { id := "doc-1", originalName := "a.pdf",
              mimeType := "application/pdf", size := 10,
              storagePath := "uploads", extractedText := "hello world",
              status := .analyzed, summary := some (.str "a summary"),
              docType := some (.str "report"),
              metadata := some (.obj []) }) =
      (.ok ⟨"doc-1", .analyzed, some (.str "a summary"),
        some (.str "report"), some (.obj [])⟩,
        some { id := "doc-1", originalName := "a.pdf",
               mimeType := "application/pdf", size := 10,
               storagePath := "uploads", extractedText := "hello world",
               status := .analyzed, summary := some (.str "a summary"),
               docType := some (.str "report"),
               metadata := some (.obj []) }, 0) :=
  analyze_idempotent_on_analyzed _ _ _ _ _ rfl (by decide)

/-- C2: for a persisted record in status `processing` (with valid extracted
text), `analyzeDocument` fails with the distinct `conflict` outcome, performs
zero model invocations, and leaves the record unchanged. -/
theorem analyze_conflict_on_processing (parse : List Char → Option Json)
    (stringifyLen : Json → Nat) (oracle : Nat → Except String String)
    (maxRetries : Nat) (doc : Document)
    (hstatus : doc.status = .processing)
    (htext : 5 ≤ (jsTrim doc.extractedText).length) :
    analyzeDocument parse stringifyLen oracle maxRetries (some doc) =
      (.error .conflict, some doc, 0) := by
  simp only [analyzeDocument]
  rw [if_neg (by omega), hstatus, if_neg (by decide), if_pos rfl]

/-- Witness for C2 at a concrete processing record. -/
theorem analyze_conflict_on_processing_witness :
    analyzeDocument (fun _ => none) (fun _ => 0) (fun _ => .error "timeout") 2
      (some { id := "doc-2", originalName := "b.pdf",
              mimeType := "application/pdf", size := 10,
              storagePath := "uploads", extractedText := "hello world",
              status := .processing, summary := none, docType := none,
              metadata := none }) =
      (.error .conflict,
        some { id := "doc-2", originalName := "b.pdf",
               mimeType := "application/pdf", size := 10,
               storagePath := "uploads", extractedText := "hello world",
               status := .processing, summary := none, docType := none,
               metadata := none }, 0) :=
  analyze_conflict_on_processing _ _ _ _ _ rfl (by decide)

/-- Helper for C4: from any attempt index `a` with `1 ≤ a ≤ N`, an
always-failing oracle makes the loop perform the remaining `N + 1 - a`
attempts and surface the error of attempt `N`. -/
theorem geminiAttempts_all_fail (oracle : Nat → Except String String)
    (errf : Nat → String) (hfail : ∀ i, oracle i = .error (errf i)) (N : Nat) :
    ∀ k a, 1 ≤ a → a ≤ N → N - a = k →
      geminiAttempts oracle N a = (.error (errf N), N + 1 - a) := by
  intro k
  induction k with
  | zero =>
    intro a h1 h2 hk
    have haN : a = N := by omega
    subst haN
    unfold geminiAttempts
    rw [if_neg (by omega), hfail a]
    simp
  | succ k ih =>
    intro a h1 h2 hk
    have hne : a ≠ N := by omega
    unfold geminiAttempts
    rw [if_neg (by omega), hfail a]
    simp [hne, ih (a + 1) (by omega) (by omega) (by omega)]
    omega

/-- C4: a retry loop configured with attempt bound `N ≥ 1` whose model call
fails on every attempt performs exactly `N` attempts — never `N + 1` — and
surfaces the error of the last attempt. -/
theorem retry_exhausts_exactly_maxAttempts (oracle : Nat → Except String String)
    (errf : Nat → String) (N : Nat) (hN : 1 ≤ N)
    (hfail : ∀ i, oracle i = .error (errf i)) :
    geminiAttempts oracle N 1 = (.error (errf N), N) := by
  have h := geminiAttempts_all_fail oracle errf hfail N (N - 1) 1 le_rfl hN rfl
  rw [h]
  norm_num

/-- Witness for C4: an oracle that always times out under `maxAttempts = 3`
makes exactly 3 attempts and surfaces the timeout. -/
theorem retry_exhausts_exactly_maxAttempts_witness :
    geminiAttempts (fun _ => .error "AI request timed out after 25000ms") 3 1 =
      (.error "AI request timed out after 25000ms", 3) :=
  retry_exhausts_exactly_maxAttempts
    (fun _ => .error "AI request timed out after 25000ms")
    (fun _ => "AI request timed out after 25000ms") 3 (by omega) (fun _ => rfl)

/-- C3 counterexample: the status check and the `processing` transition are
two separate storage operations, so under the interleaving
read₁, read₂, update₁, update₂ both analyze calls on the same `uploaded`
record pass the check and proceed — neither observes a conflict — refuting
the claim that every interleaving lets exactly one call proceed while the
other observes `Conflict` via an atomic compare-and-set. -/
theorem concurrent_analyze_claim_counterexample :
    runSchedule [true, false, true, false] (.uploaded, .start, .start) =
      (.processing, .proceeding, .proceeding) ∧
    ThreadPhase.proceeding ≠ ThreadPhase.gotConflict := by
  exact ⟨rfl, by decide⟩

/-- C3 (amended): the guard is a read followed by a separate unconditional
update (a read-modify-write with a gap).  When the two calls interleave
between read and update, both pass the check and both set `processing` with
neither observing `Conflict`; only when the second call's read happens after
the first call's update does the second observe `Conflict`. -/
theorem concurrent_analyze_read_update_gap :
    runSchedule [true, false, true, false] (.uploaded, .start, .start) =
      (.processing, .proceeding, .proceeding) ∧
    runSchedule [true, true, false, false] (.uploaded, .start, .start) =
      (.processing, .proceeding, .gotConflict) := by
  exact ⟨rfl, rfl⟩

/-- Helper: when the first attempt succeeds (and the bound admits at least
one attempt), the retry loop returns that response after exactly one model
invocation. -/
theorem geminiAttempts_first_ok (oracle : Nat → Except String String)
    (maxRetries : Nat) (s : String) (h1 : 1 ≤ maxRetries)
    (hok : oracle 1 = .ok s) :
    geminiAttempts oracle maxRetries 1 = (.ok (some s), 1) := by
  unfold geminiAttempts
  rw [if_neg (by omega), hok]

/-- C5 counterexample: the synchronous workflow hands the raw text to
`JSON.parse` with no candidate selection (at raw text `x\x7b\x7d` the claim's
algorithm would select `\x7b\x7d`), and the asynchronous selection trims the
fenced interior (at a fenced block whose interior is `\n\x7b\x7d\n` the code
yields `\x7b\x7d`, not the untrimmed interior the claim describes). -/
theorem jsonCandidate_claim_counterexample :
    (syncJsonCandidate ("x\x7b\x7d".data) = "x\x7b\x7d".data ∧
      claimJsonCandidate ("x\x7b\x7d".data) = "\x7b\x7d".data ∧
      "x\x7b\x7d".data ≠ "\x7b\x7d".data) ∧
    (extractFirstJsonBlock ("```json\n\x7b\x7d\n```".data) = "\x7b\x7d".data ∧
      claimJsonCandidate ("```json\n\x7b\x7d\n```".data) = "\n\x7b\x7d\n".data ∧
      "\x7b\x7d".data ≠ "\n\x7b\x7d\n".data) := by
  exact ⟨⟨rfl, by decide, by decide⟩, ⟨by decide, by decide, by decide⟩⟩

/-- C5 (amended): the asynchronous workflow selects its JSON candidate as
the trimmed interior of the first case-insensitive fenced JSON block when
one is closed by a later fence; otherwise, when the text holds a `\x7b` and
a `\x7d` with the last `\x7d` strictly after the first `\x7b`, the inclusive
slice between them; otherwise the trimmed text.  The synchronous workflow
performs no candidate selection and parses the raw model text directly.  In
both workflows a JSON parse failure yields a typed malformed-JSON /
analysis-failed error rather than a crash. -/
theorem jsonCandidate_selection_amended :
    (∀ text : List Char, extractFirstJsonBlock text = amendedJsonCandidate text) ∧
    (∀ raw : List Char, syncJsonCandidate raw = raw) ∧
    (∀ text raw : String, 5 ≤ (jsTrim text).length → 1 ≤ (jsTrim raw).length →
      summarizeAndExtract (fun _ => none) (.ok text) (some raw) =
        .error .malformedJson) ∧
    (∀ (stringifyLen : Json → Nat) (oracle : Nat → Except String String)
        (maxRetries : Nat) (doc : Document) (s : String),
      doc.status = .uploaded → 5 ≤ (jsTrim doc.extractedText).length →
      oracle 1 = .ok s → 1 ≤ maxRetries → 1 ≤ (trimChars s.data).length →
      analyzeDocument (fun _ => none) stringifyLen oracle maxRetries (some doc) =
        (.error .aiFailed, some { doc with status := .failed }, 1)) := by
  refine ⟨?_, fun _ => rfl, ?_, ?_⟩
  · intro text
    unfold extractFirstJsonBlock amendedJsonCandidate
    cases hf : fencedInterior text with
    | some interior => rfl
    | none =>
      cases h1 : text.findIdx? (· = '{') with
      | none => simp [jsIndexOf, h1]
      | some f =>
        cases h2 : lastIdxOf text '}' with
        | none => simp [jsIndexOf, jsLastIndexOf, h1, h2]
        | some l =>
          simp only [jsIndexOf, jsLastIndexOf, h1, h2]
          by_cases hfl : f < l
          · rw [if_pos ⟨by omega, by omega, by exact_mod_cast hfl⟩, if_pos hfl]
            simp [Int.toNat_natCast]
          · rw [if_neg (by rintro ⟨-, -, h⟩; exact hfl (by exact_mod_cast h)),
              if_neg hfl]
  · intro text raw htext hraw
    simp only [summarizeAndExtract]
    rw [if_neg (by omega), if_neg (by omega)]
  · intro stringifyLen oracle maxRetries doc s hst htext hok hmax hne
    simp only [analyzeDocument]
    rw [if_neg (by omega), hst, if_neg (by decide), if_neg (by decide),
      geminiAttempts_first_ok oracle maxRetries s hmax hok]
    simp only []
    rw [if_neg (by omega)]

/-- Witness for C5 (amended): both parse-failure clauses at concrete
inputs — a failing `JSON.parse` yields the typed malformed-JSON error in the
synchronous workflow and the generic analysis-failed error (with the record
marked `failed`) in the asynchronous one. -/
theorem jsonCandidate_selection_amended_witness :
    summarizeAndExtract (fun _ => none) (.ok "hello world document")
      (some "not valid json") = .error .malformedJson ∧
    analyzeDocument (fun _ => none) (fun _ => 0) (fun _ => .ok "not valid json") 2
      (some { id := "doc-3", originalName := "c.pdf",
              mimeType := "application/pdf", size := 9, storagePath := "uploads",
              extractedText := "hello world", status := .uploaded,
              summary := none, docType := none, metadata := none }) =
      (.error .aiFailed,
        some { id := "doc-3", originalName := "c.pdf",
               mimeType := "application/pdf", size := 9, storagePath := "uploads",
               extractedText := "hello world", status := .failed,
               summary := none, docType := none, metadata := none }, 1) := by
  constructor
  · exact jsonCandidate_selection_amended.2.2.1 "hello world document"
      "not valid json" (by decide) (by decide)
  · exact jsonCandidate_selection_amended.2.2.2 (fun _ => 0)
      (fun _ => .ok "not valid json") 2 _ "not valid json" rfl (by decide) rfl
      (by omega) (by decide)

/-- Helper for C6: the required-field loop reports exactly the first listed
field that is not a key of the parsed object, and succeeds when every listed
field is a key. -/
theorem validateRequired_eq_find (fields : List String) (parsed : Json) :
    validateRequired fields parsed =
      (match fields.find? (fun g => ! hasKey parsed g) with
       | some f => .error f
       | none => .ok ()) := by
  induction fields with
  | nil => rfl
  | cons f rest ih =>
    unfold validateRequired
    rw [List.find?_cons]
    cases hk : hasKey parsed f with
    | true => simp [hk, ih]
    | false => simp [hk]

/-- C6 counterexample: in the asynchronous workflow a parsed object carrying
both required keys but an empty-string `summary` fails validation — the code
tests truthiness (`!parsed.summary`), not key presence, so a field present
with an empty value does not pass. -/
theorem validation_claim_counterexample :
    hasKey (Json.obj [("summary", .str ""), ("docType", .str "report")])
      "summary" = true ∧
    hasKey (Json.obj [("summary", .str ""), ("docType", .str "report")])
      "docType" = true ∧
    validateAsync (Json.obj [("summary", .str ""), ("docType", .str "report")])
      = false := by
  exact ⟨by decide, by decide, by decide⟩

/-- C6 (amended): the synchronous workflow's validation succeeds exactly when
every required field is present as a key (an empty value passes) and
otherwise reports the first missing field in the required-field order, with
no later field checked first; the asynchronous workflow instead requires the
`summary` and `docType` property values to be truthy — a field present with
an empty value fails there — and its error names no field. -/
theorem required_field_validation_amended :
    (∀ parsed, validateSync parsed =
      (match requiredFields.find? (fun g => ! hasKey parsed g) with
       | some f => Except.error f
       | none => Except.ok ())) ∧
    (∀ parsed, validateAsync parsed =
      (truthyOpt (getField parsed "summary") &&
        truthyOpt (getField parsed "docType"))) ∧
    (∀ d, validateAsync (Json.obj [("summary", .str ""), ("docType", d)])
      = false) := by
  exact ⟨fun parsed => validateRequired_eq_find requiredFields parsed,
    fun _ => rfl, fun d => rfl⟩

/-- C7: in both workflows the prompt is built from the first 8000 characters
of the extracted text — exactly 8000 of them when the text is at least that
long, and the text unmodified when it is not longer. -/
theorem prompt_truncation_first_8000 (text : List Char) :
    promptInputSync text = text.take 8000 ∧
    promptInputAsync text = text.take 8000 ∧
    (8000 ≤ text.length → (promptInputAsync text).length = 8000) ∧
    (text.length ≤ 8000 → promptInputAsync text = text) := by
  refine ⟨?_, rfl, ?_, ?_⟩
  · unfold promptInputSync
    split
    · rfl
    · next h => rw [List.take_of_length_le (by omega)]
  · intro h
    unfold promptInputAsync
    rw [List.length_take]
    omega
  · intro h
    unfold promptInputAsync
    exact List.take_of_length_le h

/-- Witness for C7: a 9000-character input yields a prompt built from exactly
the first 8000 characters; a 100-character input is embedded unmodified. -/
theorem prompt_truncation_first_8000_witness :
    (promptInputAsync (List.replicate 9000 'a')).length = 8000 ∧
    promptInputSync (List.replicate 100 'b') = List.replicate 100 'b' := by
  constructor
  · exact (prompt_truncation_first_8000 (List.replicate 9000 'a')).2.2.1
      (by rw [List.length_replicate]; omega)
  · calc promptInputSync (List.replicate 100 'b')
        = (List.replicate 100 'b').take 8000 :=
          (prompt_truncation_first_8000 (List.replicate 100 'b')).1
      _ = promptInputAsync (List.replicate 100 'b') :=
          ((prompt_truncation_first_8000 (List.replicate 100 'b')).2.1).symm
      _ = List.replicate 100 'b' :=
          (prompt_truncation_first_8000 (List.replicate 100 'b')).2.2.2
            (by rw [List.length_replicate]; omega)

/-- C8 counterexample: under the default configuration the allowed-extension
list is `.pdf,.docx`, so uploading a well-formed 3-line `.txt` file of valid
size is rejected with the invalid-input (unsupported type) error, refuting
the claim that the upload operation accepts `.txt`. -/
theorem upload_txt_claim_counterexample :
    uploadDocument none none true none none "id-1"
      (some ⟨"notes.txt", "text/plain", "line one\nline two\nline three", none⟩)
      = .error .unsupportedType := by
  rfl

/-- C8 (amended): the upload operation accepts exactly the extensions in the
configured `ALLOWED_FILE_TYPES` list (entries trimmed and lower-cased),
whose default is `.pdf,.docx`; any other extension is rejected with an
invalid-input error.  `.txt` is accepted only when configured: with
`ALLOWED_FILE_TYPES=.pdf,.docx,.txt`, uploading a valid 3-line `.txt` file
succeeds and creates a record in status `uploaded`. -/
theorem upload_allowed_extensions_amended :
    parseAllowedExtensions none = [".pdf", ".docx"] ∧
    uploadDocument (some ".pdf,.docx,.txt") none true none none "id-1"
      (some ⟨"notes.txt", "text/plain", "line one\nline two\nline three", none⟩)
      = .ok { id := "id-1", originalName := "notes.txt",
              mimeType := "text/plain",
              size := "line one\nline two\nline three".length,
              storagePath := "uploads",
              extractedText := "line one\nline two\nline three",
              status := .uploaded, summary := none, docType := none,
              metadata := none } ∧
    (∀ (allowedCfg : Option String) (maxSizeCfg : Option Nat) (storeOk : Bool)
        (pdfO docxO : Option (Option String)) (newId : String)
        (f : UploadFile),
      f.buffer.length ≠ 0 →
      f.size.getD f.buffer.length ≤ maxFileSizeBytes maxSizeCfg →
      toLowerStr (extnameOf f.originalname) ∉ parseAllowedExtensions allowedCfg →
      uploadDocument allowedCfg maxSizeCfg storeOk pdfO docxO newId (some f) =
        .error .unsupportedType) := by
  refine ⟨rfl, by rfl, ?_⟩
  intro allowedCfg maxSizeCfg storeOk pdfO docxO newId f hbuf hsize hext
  simp only [uploadDocument]
  rw [if_neg hbuf, if_neg (by omega), if_pos hext]

/-- Witness for C8 (amended): a file with an extension outside the default
allowed list is rejected as an unsupported type. -/
theorem upload_allowed_extensions_amended_witness :
    uploadDocument none none true none none "id-2"
      (some ⟨"script.exe", "application/octet-stream", "hello there", none⟩) =
      .error .unsupportedType :=
  upload_allowed_extensions_amended.2.2 none none true none none "id-2"
    ⟨"script.exe", "application/octet-stream", "hello there", none⟩
    (by decide) (by decide) (by decide)

/-- C9 counterexample: both revisions of the text extractor return the
decoded `.txt` buffer as-is, so a `.txt` file whose content carries
surrounding whitespace is handed upstream untrimmed — the result does not
equal its own trim. -/
theorem extractor_trim_claim_counterexample :
    extractTextV2 none none " padded text " "notes.txt" = .ok " padded text " ∧
    extractTextV1 none " padded text " "notes.txt" = .ok " padded text " ∧
    jsTrim " padded text " ≠ " padded text " := by
  exact ⟨rfl, rfl, by decide⟩

/-- C9 (amended): in the second-revision extractor the PDF and DOCX branches
trim the library output before returning it (the returned text is a trim,
and trimming is idempotent), but in both revisions the `.txt` branch returns
the decoded buffer unmodified, so `.txt` text may reach the upstream
workflow untrimmed. -/
theorem extractor_txt_untrimmed_amended :
    (∀ (pdfO docxO : Option (Option String)) (buf name : String),
      toLowerStr (extnameOf name) = ".txt" →
      extractTextV2 pdfO docxO buf name = .ok buf) ∧
    (∀ (pdfO : Option (Option String)) (buf name : String),
      toLowerStr (extnameOf name) = ".txt" →
      extractTextV1 pdfO buf name = .ok buf) ∧
    (∀ (t : Option String) (docxO : Option (Option String)) (buf name : String),
      toLowerStr (extnameOf name) = ".pdf" →
      extractTextV2 (some t) docxO buf name = .ok (jsTrim (t.getD ""))) ∧
    (∀ (t : Option String) (pdfO : Option (Option String)) (buf name : String),
      toLowerStr (extnameOf name) = ".docx" →
      extractTextV2 pdfO (some t) buf name = .ok (jsTrim (t.getD ""))) ∧
    (∀ s : String, jsTrim (jsTrim s) = jsTrim s) := by
  refine ⟨?_, ?_, ?_, ?_, jsTrim_idem⟩
  · intro pdfO docxO buf name hext
    simp [extractTextV2, hext]
  · intro pdfO buf name hext
    simp [extractTextV1, hext]
  · intro t docxO buf name hext
    simp only [extractTextV2, hext]
    rw [if_pos trivial]
    cases t <;> rfl
  · intro t pdfO buf name hext
    simp only [extractTextV2, hext]
    rw [if_pos trivial]
    cases t <;> rfl

/-- Witness for C9 (amended): a padded `.txt` buffer is returned verbatim,
while a padded PDF library result comes back trimmed. -/
theorem extractor_txt_untrimmed_amended_witness :
    extractTextV2 none none " hi there " "a.txt" = .ok " hi there " ∧
    extractTextV2 (some (some "  september report  ")) none "buf" "b.pdf" =
      .ok (jsTrim "  september report  ") := by
  constructor
  · exact extractor_txt_untrimmed_amended.1 none none " hi there " "a.txt"
      (by decide)
  · exact extractor_txt_untrimmed_amended.2.2.1 (some "  september report  ")
      none "buf" "b.pdf" (by decide)

/-- C10 counterexample: the sanitizer's character class keeps dots, so the
input `..` is returned unchanged — the result is the parent-directory
traversal component, refuting the parenthetical "no directory-traversal
components". -/
theorem sanitize_traversal_claim_counterexample :
    sanitizeFileName "0" ".." = ".." ∧ isTraversalComponent ".." = true := by
  exact ⟨rfl, rfl⟩

/-- Helper for C10: every character of the replaced basename passes the
sanitizer's character class (kept characters by the class itself, everything
else became an underscore). -/
theorem replaced_chars_safe (l : List Char) :
    ∀ c ∈ l.map (fun c => if isSafeChar c then c else '_'),
      isSafeChar c = true := by
  intro c hc
  rcases List.mem_map.mp hc with ⟨b, _, hb⟩
  by_cases hsb : isSafeChar b = true
  · rw [← hb, if_pos hsb]
    exact hsb
  · rw [← hb, if_neg hsb]
    decide

/-- C10 (amended): for every input, the sanitizer returns a non-empty string
of length at most 80 containing only ASCII letters, digits, `.`, `-` and `_`
(hence no path separators) — provided the timestamp rendering used by the
empty-name fallback is at most 75 digits, as `Date.now()` always is.
However, because `.` is kept, the result can itself be the traversal
component `..` (see the counterexample), so "no directory-traversal
components" does not hold of the returned name in isolation. -/
theorem sanitizeFileName_charset_amended (nowStr name : String)
    (hlen : nowStr.length ≤ 75)
    (hsafe : ∀ c ∈ nowStr.data, isSafeChar c = true) :
    sanitizeFileName nowStr name ≠ "" ∧
    (sanitizeFileName nowStr name).length ≤ 80 ∧
    (∀ c ∈ (sanitizeFileName nowStr name).data, isSafeChar c = true) ∧
    '/' ∉ (sanitizeFileName nowStr name).data ∧
    '\\' ∉ (sanitizeFileName nowStr name).data := by
  set t := jsSliceLast80 ((basenamePosix name.data).map
    (fun c => if isSafeChar c then c else '_')) with ht
  have hres : sanitizeFileName nowStr name =
      if t.isEmpty then "file_" ++ nowStr else String.mk t := rfl
  have hchars : ∀ c ∈ (sanitizeFileName nowStr name).data,
      isSafeChar c = true := by
    intro c hc
    rw [hres] at hc
    by_cases he : t.isEmpty
    · rw [if_pos he, String.data_append] at hc
      rcases List.mem_append.mp hc with h | h
      · have hf : ∀ x ∈ ("file_" : String).data, isSafeChar x = true := by decide
        exact hf c h
      · exact hsafe c h
    · rw [if_neg he] at hc
      have hsub : c ∈ (basenamePosix name.data).map
          (fun c => if isSafeChar c then c else '_') := by
        apply List.drop_subset _ _ hc
      exact replaced_chars_safe _ c hsub
  refine ⟨?_, ?_, hchars, ?_, ?_⟩
  · rw [hres]
    by_cases he : t.isEmpty
    · rw [if_pos he]
      intro h
      have hl := congrArg String.length h
      rw [String.length_append] at hl
      rw [show ("file_" : String).length = 5 from rfl,
        show ("" : String).length = 0 from rfl] at hl
      omega
    · rw [if_neg he]
      intro h
      have hd : t = [] := congrArg String.data h
      rw [hd] at he
      exact he rfl
  · rw [hres]
    by_cases he : t.isEmpty
    · rw [if_pos he, String.length_append]
      have h5 : ("file_" : String).length = 5 := rfl
      omega
    · rw [if_neg he]
      have hlt : (String.mk t).length = t.length := rfl
      have hdrop : t.length ≤ 80 := by
        rw [ht]
        unfold jsSliceLast80
        rw [List.length_drop]
        omega
      omega
  · intro h
    have := hchars '/' h
    exact absurd this (by decide)
  · intro h
    have := hchars '\\' h
    exact absurd this (by decide)

/-- Witness for C10 (amended) at a traversal-laden input and a realistic
timestamp rendering. -/
theorem sanitizeFileName_charset_amended_witness :
    sanitizeFileName "1733500000000" "../../etc/passwd" ≠ "" ∧
    (sanitizeFileName "1733500000000" "../../etc/passwd").length ≤ 80 ∧
    (∀ c ∈ (sanitizeFileName "1733500000000" "../../etc/passwd").data,
      isSafeChar c = true) ∧
    '/' ∉ (sanitizeFileName "1733500000000" "../../etc/passwd").data ∧
    '\\' ∉ (sanitizeFileName "1733500000000" "../../etc/passwd").data :=
  sanitizeFileName_charset_amended "1733500000000" "../../etc/passwd"
    (by decide) (by decide)

end DocWorkflow
